import Mathlib

/-!
Verification of the matching and synchronization logic of
`keychain2bitwarden.py` (class `KeychainBitwardenSync`).

Strings are modelled as lists of characters (`Str`); Python's string
operations used by the program (`split`, `strip`, substring test `in`)
are embedded below with their Python semantics.  Subprocess and JSON
layers are modelled by their observable outcomes (exit codes, parsed
stdout), and the collaborator methods of the class become pure
functions of those outcomes.
-/

/-- Python strings are sequences of characters. -/
abbrev Str := List Char

/-- The separator `" - "` used in Bitwarden item display names
(source lines 143 and 181). -/
def SEP : Str := [' ', '-', ' ']

/-- The `'username'` key of the login dictionary (source lines 147 and 181). -/
def UNAME : Str := "username".data

/-- The `'password'` key of the login dictionary (source line 148). -/
def PASSKEY : Str := "password".data

/-- The `'acct'` attribute key read from the keychain dump (source line 60). -/
def ACCT : Str := "acct".data

/-- The `'svce'` attribute key read from the keychain dump (source line 61). -/
def SVCE : Str := "svce".data

/-- The marker `'keychain: '` that begins a new entry in the keychain
dump (source line 57). -/
def KCMARK : Str := "keychain: ".data

/-- Fuelled worker for Python `str.split(sep)` with a non-empty separator:
scan left to right, cut at each non-overlapping occurrence of `sep`.
The fuel is an upper bound on the length of the unscanned input, so the
fuel-exhausted fallback is never reached when called through `pySplit`. -/
def splitGo (sep : Str) : Nat → Str → Str → List Str
  | _, [], acc => [acc.reverse]
  | 0, s, acc => [acc.reverse ++ s]
  | fuel + 1, c :: rest, acc =>
    if sep.isPrefixOf (c :: rest) then
      acc.reverse :: splitGo sep fuel (List.drop sep.length (c :: rest)) []
    else
      splitGo sep fuel rest (c :: acc)

/-- Python `s.split(sep)` for a non-empty separator `sep`. -/
def pySplit (sep s : Str) : List Str :=
  splitGo sep s.length s []

/-- The prefix of `s` before the first occurrence of `sep`
(all of `s` when `sep` does not occur).  This is `s.split(sep)[0]`,
proved so below. -/
def beforeFirst (sep : Str) : Str → Str
  | [] => []
  | c :: rest =>
    if sep.isPrefixOf (c :: rest) then [] else c :: beforeFirst sep rest

/-- The remainder of `s` after the first occurrence of `sep`
(empty when `sep` does not occur).  Together with `beforeFirst` this is
`s.split(sep, 1)` when `sep` occurs in `s` (source line 69). -/
def afterFirst (sep : Str) : Str → Str
  | [] => []
  | c :: rest =>
    if sep.isPrefixOf (c :: rest) then List.drop sep.length (c :: rest)
    else afterFirst sep rest

/-- Python's substring test `sep in s` (source line 57). -/
def occursIn (sep : Str) : Str → Bool
  | [] => sep.isEmpty
  | c :: rest => sep.isPrefixOf (c :: rest) || occursIn sep rest

/-- Python `s.strip(chars)`: remove the characters of `chars` from both
ends of `s` (source lines 70 and 71 strip `'" '`). -/
def pyStrip (chars : Str) (s : Str) : Str :=
  ((s.dropWhile (fun c => chars.contains c)).reverse.dropWhile
    (fun c => chars.contains c)).reverse

/-- Python `s.strip()` with no argument: remove whitespace from both
ends (source line 102). -/
def pyStripWS (s : Str) : Str :=
  ((s.dropWhile Char.isWhitespace).reverse.dropWhile Char.isWhitespace).reverse

/-- Python `d.get(k, dflt)` on a dictionary modelled as an association
list (insertion order, unique keys maintained by `dictSet`). -/
def dictGet (d : List (Str × Str)) (k dflt : Str) : Str :=
  match d.find? (fun p => p.1 == k) with
  | some p => p.2
  | none => dflt

/-- Python `d[k] = v` on a dictionary modelled as an association list:
overwrite in place if the key exists, otherwise append. -/
def dictSet (d : List (Str × Str)) (k v : Str) : List (Str × Str) :=
  if d.any (fun p => p.1 == k) then
    d.map (fun p => if p.1 == k then (k, v) else p)
  else
    d ++ [(k, v)]

/-- `KeychainItem` (source lines 14-18).  The password field is kept
although no claim depends on it. -/
structure KeychainItem where
  account : Str
  service : Str
  password : Str
deriving DecidableEq

/-- `BitwardenItem` (source lines 20-24).  The untyped `login`
dictionary is modelled by its string-valued fields; only its
`'username'` entry is ever read by the program. -/
structure BitwardenItem where
  id : Str
  name : Str
  login : List (Str × Str)
deriving DecidableEq

/-- One raw element of the JSON array printed by `bw list items`
(source lines 122-127): the `'id'` and `'name'` fields are required
(`item['id']`, `item['name']`), `'login'` is optional
(`item.get('login', {})`). -/
structure RawItem where
  id : Str
  name : Str
  login : Option (List (Str × Str))
deriving DecidableEq

/-- The comparison key of a Bitwarden item (source line 181):
`f"{item.login.get('username', '')}@{item.name.split(' - ')[0]}"`. -/
def bwItemKey (item : BitwardenItem) : Str :=
  dictGet item.login UNAME [] ++ ['@'] ++ (pySplit SEP item.name).headD []

/-- The comparison key of a keychain item (source line 186):
`f"{kc_item.account}@{kc_item.service}"`. -/
def kcItemKey (item : KeychainItem) : Str :=
  item.account ++ ['@'] ++ item.service

/-- The classification of one local credential against the set of
existing vault keys: the source tests `key not in bw_lookup`
(source line 188), so PRESENT exactly when the key is a member. -/
inductive Classification where
  | PRESENT
  | MISSING
deriving DecidableEq

/-- `classify` (source lines 186-188): membership of the local key in
the existing-key set decides PRESENT versus MISSING. -/
def classify (item : KeychainItem) (existingKeys : List Str) : Classification :=
  if kcItemKey item ∈ existingKeys then Classification.PRESENT
  else Classification.MISSING

/-- The set of comparison keys of a list of vault entries: the key set
of the `bw_lookup` dictionary built at source lines 180-183 (later
duplicates overwrite earlier ones, which leaves the key set unchanged). -/
def vaultKeySet (entries : List BitwardenItem) : Finset Str :=
  (entries.map bwItemKey).toFinset

/-- Whether the held session value is falsy in Python: `None` or the
empty string both fail the `if not self.bw_session` tests at source
lines 112 and 136. -/
def sessionFalsy : Option Str → Bool
  | none => true
  | some s => s.isEmpty

/-- `_login_bitwarden` (source lines 88-107), as a function of the
outcome of the `bw login` subprocess: on a non-zero exit code it
returns `False` and leaves the session at its initial `None`; on a
zero exit code it stores `result.stdout.decode().strip()` as the
session and returns `True`.  The interactive prompts and the exception
path concern only the I/O environment and carry no program data. -/
def login_bitwarden (exitCode : Int) (stdout : Str) : Bool × Option Str :=
  if exitCode ≠ 0 then (false, none)
  else (true, some (pyStripWS stdout))

/-- `_get_bitwarden_items` (source lines 109-131), as a function of the
held session and of the outcome of `bw list items`: empty list when the
session is falsy, when the exit code is non-zero, or when
`json.loads`/field access raises (the `parsed` argument is then
`Except.error`); otherwise one `BitwardenItem` per element of the
parsed array, with `login` defaulting to the empty dictionary. -/
def get_bitwarden_items (session : Option Str) (exitCode : Int)
    (parsed : Except Unit (List RawItem)) : List BitwardenItem :=
  if sessionFalsy session then []
  else if exitCode ≠ 0 then []
  else
    match parsed with
    | Except.error _ => []
    | Except.ok raws => raws.map (fun r => ⟨r.id, r.name, r.login.getD []⟩)

/-- The item payload `_create_bitwarden_item` builds for a keychain
item (source lines 139-156): display name `f"{service} - {account}"`,
login username the account and login password the password.  The
constant JSON fields (`type`, `notes`, `uris`, ...) and the
server-assigned `id` carry no matching data and are left empty. -/
def createdItem (kc : KeychainItem) : BitwardenItem :=
  ⟨[], kc.service ++ SEP ++ kc.account, [(UNAME, kc.account), (PASSKEY, kc.password)]⟩

/-- `_create_bitwarden_item` (source lines 133-169), as a function of
the held session and the exit code of `bw create item`.  The first
component records whether the `bw create` subprocess runs at all (it
does not when the session is falsy, source lines 136-137); the second
is the returned boolean. -/
def create_bitwarden_item (session : Option Str) (exitCode : Int) : Bool × Bool :=
  if sessionFalsy session then (false, false)
  else (true, decide (exitCode = 0))

/-- One iteration of the parsing loop of `_get_keychain_items`
(source lines 56-72).  The state is the pair of the accumulated items
and the attributes of the entry currently being read; `pw` models
`_get_keychain_password` (a `keyring` lookup, source lines 80-86).
A line containing `'keychain: '` flushes the current entry (when
non-empty) and resets it; a line containing `'='` is split at the
first `'='` and both halves are stripped of `'" '` before being
stored; every other line is ignored. -/
def parseStep (pw : Str → Str → Str)
    (st : List KeychainItem × List (Str × Str)) (line : Str) :
    List KeychainItem × List (Str × Str) :=
  if occursIn KCMARK line then
    (if st.2.isEmpty then st.1
     else
       st.1 ++ [⟨dictGet st.2 ACCT [], dictGet st.2 SVCE [],
                 pw (dictGet st.2 ACCT []) (dictGet st.2 SVCE [])⟩],
     [])
  else if line.contains '=' then
    (st.1,
     dictSet st.2 (pyStrip ['"', ' '] (beforeFirst ['='] line))
       (pyStrip ['"', ' '] (afterFirst ['='] line)))
  else st

/-- `_get_keychain_items` (source lines 42-78), as a function of the
outcome of `security dump-keychain -d`: empty list on a non-zero exit
code, otherwise the items accumulated by folding `parseStep` over
`result.stdout.split('\n')`.  The entry still pending in `current_item`
when the loop ends is discarded, exactly as in the source. -/
def get_keychain_items (exitCode : Int) (stdout : Str)
    (pw : Str → Str → Str) : List KeychainItem :=
  if exitCode ≠ 0 then []
  else ((pySplit ['\n'] stdout).foldl (parseStep pw) ([], [])).1

/-- The per-item reports `sync` emits through the logger
(source lines 189, 192, 194 and 196). -/
inductive LogEvent where
  | newItem (key : Str)
  | created (key : Str)
  | createFailed (key : Str)
  | alreadyExists (key : Str)
deriving DecidableEq

/-- The results of the collaborator calls `sync` makes: the boolean
returned by `_login_bitwarden`, the lists returned by
`_get_keychain_items` and `_get_bitwarden_items`, and the boolean
`_create_bitwarden_item` returns for each keychain item. -/
structure Env where
  loginOk : Bool
  keychainItems : List KeychainItem
  bitwardenItems : List BitwardenItem
  createOk : KeychainItem → Bool

/-- The observable trace of one `sync` run: whether the two listing
collaborators were invoked, the arguments of the `_create_bitwarden_item`
invocations in order, and the per-item reports in order. -/
structure SyncTrace where
  listLocalCalled : Bool
  listEntriesCalled : Bool
  creates : List KeychainItem
  logs : List LogEvent
deriving DecidableEq

/-- The per-item loop of `sync` (source lines 185-196): for each
keychain item in order, test `key not in bw_lookup`; a missing item is
reported and, when not in check-only mode, created with a success or
failure report; a present item is reported as already existing. -/
def syncLoop (checkOnly : Bool) (createOk : KeychainItem → Bool)
    (keys : List Str) : List KeychainItem → List KeychainItem × List LogEvent
  | [] => ([], [])
  | kc :: rest =>
    let key := kcItemKey kc
    let hd : List KeychainItem × List LogEvent :=
      if key ∉ keys then
        if checkOnly then ([], [LogEvent.newItem key])
        else if createOk kc then ([kc], [LogEvent.newItem key, LogEvent.created key])
        else ([kc], [LogEvent.newItem key, LogEvent.createFailed key])
      else ([], [LogEvent.alreadyExists key])
    let tl := syncLoop checkOnly createOk keys rest
    (hd.1 ++ tl.1, hd.2 ++ tl.2)

/-- `sync` (source lines 171-196): abort right after a failed login;
otherwise list both sides, build the lookup keys and run the per-item
loop. -/
def sync (checkOnly : Bool) (env : Env) : SyncTrace :=
  if env.loginOk then
    let r := syncLoop checkOnly env.createOk
      (env.bitwardenItems.map bwItemKey) env.keychainItems
    ⟨true, true, r.1, r.2⟩
  else ⟨false, false, [], []⟩

/-- The first element of a fuelled split is the prefix before the first
occurrence of the separator, whatever the fuel, as long as the fuel
covers the input. -/
theorem splitGo_headD (sep : Str) :
    ∀ (fuel : Nat) (s acc : Str), s.length ≤ fuel →
      (splitGo sep fuel s acc).headD [] = acc.reverse ++ beforeFirst sep s := by
  intro fuel
  induction fuel with
  | zero =>
    intro s acc h
    cases s with
    | nil => simp [splitGo, beforeFirst]
    | cons c rest => simp at h
  | succ n ih =>
    intro s acc h
    cases s with
    | nil => simp [splitGo, beforeFirst]
    | cons c rest =>
      by_cases hp : sep.isPrefixOf (c :: rest) = true
      · simp [splitGo, beforeFirst, hp]
      · have hlen : rest.length ≤ n := by
          simpa using Nat.le_of_succ_le_succ h
        have heq : splitGo sep (n + 1) (c :: rest) acc = splitGo sep n rest (c :: acc) := by
          simp [splitGo, hp]
        rw [heq, ih rest (c :: acc) hlen]
        simp [beforeFirst, hp]

/-- `s.split(sep)[0]` is the prefix of `s` before the first occurrence
of `sep`. -/
theorem pySplit_headD (sep s : Str) :
    (pySplit sep s).headD [] = beforeFirst sep s := by
  simpa using splitGo_headD sep s.length s [] (Nat.le_refl _)

/-- The specification's description of the vault-side segment: the
substring of the display name before the FIRST occurrence of the
separator, the whole string when the separator is absent.  Stated
independently of the split embedding, via the least index at which the
separator occurs. -/
def specSegment (sep s : Str) : Str :=
  match (List.range (s.length + 1)).find? (fun i => sep.isPrefixOf (s.drop i)) with
  | some i => s.take i
  | none => s

/-- For a non-empty separator, the first split segment agrees with the
specification's substring-before-first-occurrence description. -/
theorem beforeFirst_eq_specSegment (sep : Str) (hsep : sep ≠ []) :
    ∀ s : Str, beforeFirst sep s = specSegment sep s := by
  intro s
  induction s with
  | nil =>
    cases sep with
    | nil => exact absurd rfl hsep
    | cons a as =>
      simp [beforeFirst, specSegment, List.range_succ, List.find?, List.isPrefixOf]
  | cons c rest ih =>
    by_cases hp : sep.isPrefixOf (c :: rest) = true
    · have h0 : (fun i => sep.isPrefixOf ((c :: rest).drop i)) 0 = true := hp
      unfold specSegment
      rw [List.length_cons, List.range_succ_eq_map,
        @List.find?_cons_of_pos Nat (fun i => sep.isPrefixOf ((c :: rest).drop i)) 0
          (List.map Nat.succ (List.range (rest.length + 1))) h0]
      simp [beforeFirst, hp]
    · have h0 : ¬ (fun i => sep.isPrefixOf ((c :: rest).drop i)) 0 = true := hp
      unfold specSegment
      rw [List.length_cons, List.range_succ_eq_map,
        @List.find?_cons_of_neg Nat (fun i => sep.isPrefixOf ((c :: rest).drop i)) 0
          (List.map Nat.succ (List.range (rest.length + 1))) h0,
        List.find?_map]
      have hcomp :
          ((fun i => sep.isPrefixOf ((c :: rest).drop i)) ∘ Nat.succ) =
            fun i => sep.isPrefixOf (rest.drop i) := rfl
      rw [hcomp]
      unfold specSegment at ih
      cases hq : (List.range (rest.length + 1)).find? (fun i => sep.isPrefixOf (rest.drop i)) with
      | none =>
        rw [hq] at ih
        simp [beforeFirst, hp, ih, hq]
      | some i =>
        rw [hq] at ih
        simp [beforeFirst, hp, ih, hq]

/-- A suffix of a list is still a suffix after consing an element in
front. -/
theorem isSuffixOf_cons {x s : Str} (c : Char)
    (h : List.isSuffixOf x s = true) : List.isSuffixOf x (c :: s) = true := by
  rw [List.isSuffixOf_iff_suffix] at h ⊢
  rcases h with ⟨u, hu⟩
  exact ⟨c :: u, by simp [hu]⟩

/-- Boundary law for the display-name separator: if `s` neither
contains `" - "` nor ends in `" -"`, then the first occurrence of the
separator in `s ++ " - " ++ t` is exactly the one at the boundary, so
the segment before it is `s` itself. -/
theorem beforeFirst_boundary (t : Str) :
    ∀ s : Str, occursIn SEP s = false → List.isSuffixOf [' ', '-'] s = false →
      beforeFirst SEP (s ++ (SEP ++ t)) = s := by
  intro s
  induction s with
  | nil =>
    intro _ _
    simp [beforeFirst, SEP, List.isPrefixOf]
  | cons c s1 ih =>
    intro h1 h2
    have h1s : (SEP.isPrefixOf (c :: s1) || occursIn SEP s1) = false := h1
    rw [Bool.or_eq_false_iff] at h1s
    have h2s : List.isSuffixOf [' ', '-'] s1 = false := by
      cases hx : List.isSuffixOf [' ', '-'] s1 with
      | false => rfl
      | true =>
        rw [isSuffixOf_cons c hx] at h2
        exact Bool.noConfusion h2
    by_cases hp : SEP.isPrefixOf (c :: (s1 ++ (SEP ++ t))) = true
    · exfalso
      rcases s1 with _ | ⟨d, s2⟩
      · simp [SEP, List.isPrefixOf] at hp
      · rcases s2 with _ | ⟨e, s3⟩
        · simp [SEP, List.isPrefixOf] at hp
          rcases hp with ⟨hc, hd⟩
          rw [← hc, ← hd] at h2
          simp [List.isSuffixOf, List.isPrefixOf] at h2
        · simp [SEP, List.isPrefixOf] at hp
          rcases hp with ⟨hc, hd, he⟩
          rw [← hc, ← hd, ← he] at h1s
          simp [SEP, List.isPrefixOf] at h1s
    · rw [List.cons_append, beforeFirst, if_neg hp]
      exact congrArg (List.cons c) (ih h1s.2 h2s)

/-- In check-only mode the loop performs no create invocations. -/
theorem syncLoop_check_creates (createOk : KeychainItem → Bool) (keys : List Str) :
    ∀ kcs : List KeychainItem, (syncLoop true createOk keys kcs).1 = [] := by
  intro kcs
  induction kcs with
  | nil => rfl
  | cons kc rest ih =>
    by_cases h : kcItemKey kc ∈ keys <;> simp [syncLoop, h, ih]

/-- In write mode the loop's create invocations are exactly the items
classified MISSING, in input order, whatever the per-item create
results. -/
theorem syncLoop_write_creates (createOk : KeychainItem → Bool) (keys : List Str) :
    ∀ kcs : List KeychainItem,
      (syncLoop false createOk keys kcs).1 =
        kcs.filter (fun kc => decide (classify kc keys = Classification.MISSING)) := by
  intro kcs
  induction kcs with
  | nil => rfl
  | cons kc rest ih =>
    by_cases h : kcItemKey kc ∈ keys
    · simp [syncLoop, h, ih, classify, List.filter_cons]
    · cases hc : createOk kc <;>
        simp [syncLoop, h, ih, classify, List.filter_cons, hc]

/-- Sample local credential `user1@example.com` (spec Scenario A). -/
def kcU1 : KeychainItem := ⟨"user1".data, "example.com".data, "pw1".data⟩

/-- Sample local credential `user2@test.com` (spec Scenario A). -/
def kcU2 : KeychainItem := ⟨"user2".data, "test.com".data, "pw2".data⟩

/-- Sample vault entry whose key is `user1@example.com` (spec Scenario A). -/
def bwU0 : BitwardenItem :=
  ⟨"item1".data, "example.com - user1".data, [(UNAME, "user1".data)]⟩

/-- Sample collaborator results for a write-mode run: login succeeds,
two local credentials, one vault entry matching the first. -/
def envWrite : Env := ⟨true, [kcU1, kcU2], [bwU0], fun _ => false⟩

/-- Sample collaborator results for a failed login. -/
def envFail : Env := ⟨false, [kcU1], [bwU0], fun _ => true⟩

/-- C1: a `sync` run with `checkOnly = true` never invokes
`_create_bitwarden_item`, for every combination of collaborator
results and hence for every list of local credentials and vault
entries. -/
theorem sync_checkOnly_no_creates (env : Env) : (sync true env).creates = [] := by
  by_cases h : env.loginOk = true
  · simp [sync, h, syncLoop_check_creates]
  · simp [sync, h]

/-- C2: a `sync` run with `checkOnly = false` (after a successful
login) invokes `_create_bitwarden_item` exactly on the local
credentials that classify MISSING against the vault keys, once each,
in input order; the per-item create results (`env.createOk`) do not
appear on the right-hand side, so a failing create stops nothing. -/
theorem sync_write_creates_missing (env : Env) (h : env.loginOk = true) :
    (sync false env).creates =
      env.keychainItems.filter
        (fun kc =>
          decide (classify kc (env.bitwardenItems.map bwItemKey) =
            Classification.MISSING)) := by
  simp [sync, h, syncLoop_write_creates]

/-- Witness for C2 at spec Scenario A with every create failing: the
first credential is PRESENT, the second MISSING, and exactly the
second is passed to `_create_bitwarden_item`. -/
theorem sync_write_creates_missing_witness :
    envWrite.loginOk = true ∧ (sync false envWrite).creates = [kcU2] := by
  refine ⟨rfl, (sync_write_creates_missing envWrite rfl).trans ?_⟩
  decide

/-- C3: when `_login_bitwarden` fails, `sync` returns at once: the two
listing collaborators are never invoked, no item is passed to
`_create_bitwarden_item`, and no per-item report is emitted. -/
theorem sync_login_failure_aborts (checkOnly : Bool) (env : Env)
    (h : env.loginOk = false) :
    sync checkOnly env = ⟨false, false, [], []⟩ := by
  simp [sync, h]

/-- Witness for C3 at a concrete environment with a failed login. -/
theorem sync_login_failure_aborts_witness :
    envFail.loginOk = false ∧ sync true envFail = ⟨false, false, [], []⟩ :=
  ⟨rfl, sync_login_failure_aborts true envFail rfl⟩

/-- The specification's vault comparison key: username from the login
fields (empty string when absent), then `"@"`, then the substring of
the display name before the first occurrence of `" - "` (the whole
display name when the separator is absent). -/
def specVaultKey (entry : BitwardenItem) : Str :=
  dictGet entry.login UNAME [] ++ ['@'] ++ specSegment SEP entry.name

/-- C4: the comparison key the program computes for a vault entry
agrees with the specification's description of it. -/
theorem bwItemKey_eq_spec (entry : BitwardenItem) :
    bwItemKey entry = specVaultKey entry := by
  unfold bwItemKey specVaultKey
  rw [pySplit_headD, beforeFirst_eq_specSegment SEP (by simp [SEP])]

/-- The only decomposition of the string `"a@b"` as
`account ++ "@" ++ service` is `account = "a"`, `service = "b"`. -/
theorem append_at_eq_ab (acc svc : Str) :
    acc ++ ['@'] ++ svc = ['a', '@', 'b'] ↔ acc = ['a'] ∧ svc = ['b'] := by
  constructor
  · intro h
    rcases acc with _ | ⟨c, acc1⟩
    · simp only [List.nil_append, List.cons_append] at h
      injection h with h1 h2
      exact absurd h1 (by decide)
    · rcases acc1 with _ | ⟨d, acc2⟩
      · simp only [List.cons_append, List.nil_append] at h
        injection h with h1 h2
        injection h2 with h3 h4
        exact ⟨by rw [h1], h4⟩
      · rcases acc2 with _ | ⟨e, acc3⟩
        · simp only [List.cons_append, List.nil_append] at h
          injection h with h1 h2
          injection h2 with h3 h4
          injection h4 with h5 h6
          exact absurd h5 (by decide)
        · simp only [List.cons_append] at h
          injection h with h1 h2
          injection h2 with h3 h4
          injection h4 with h5 h6
          exact absurd h6 (by simp)
  · rintro ⟨h1, h2⟩
    rw [h1, h2]
    rfl

/-- C5: a local credential classifies PRESENT exactly when
`account ++ "@" ++ service` is among the existing keys; against the
key set holding only `"a@b"`, exactly the credential with account
`"a"` and service `"b"` classifies PRESENT. -/
theorem classify_present_iff (kc : KeychainItem) (keys : List Str) :
    (classify kc keys = Classification.PRESENT ↔
      kc.account ++ ['@'] ++ kc.service ∈ keys) ∧
    (classify kc [['a', '@', 'b']] = Classification.PRESENT ↔
      kc.account = ['a'] ∧ kc.service = ['b']) := by
  constructor
  · by_cases h : kc.account ++ ['@'] ++ kc.service ∈ keys <;>
      simp [classify, kcItemKey, h]
  · constructor
    · intro h
      by_cases hm : kcItemKey kc ∈ [(['a', '@', 'b'] : Str)]
      · exact (append_at_eq_ab kc.account kc.service).1
          (by simpa [kcItemKey] using hm)
      · simp [classify, hm] at h
        exact absurd h (by simpa using hm)
    · rintro ⟨h1, h2⟩
      simp [classify, kcItemKey, h1, h2]

/-- C7: the set of vault comparison keys does not depend on the order
of the vault entry list. -/
theorem vaultKeySet_perm_invariant (l l2 : List BitwardenItem)
    (h : l.Perm l2) : vaultKeySet l = vaultKeySet l2 :=
  List.toFinset_eq_of_perm _ _ (h.map bwItemKey)

/-- Sample vault entry with key `u@alpha`. -/
def bwV1 : BitwardenItem := ⟨"1".data, "alpha - u".data, [(UNAME, "u".data)]⟩

/-- Sample vault entry with key `v@beta`. -/
def bwV2 : BitwardenItem := ⟨"2".data, "beta - v".data, [(UNAME, "v".data)]⟩

/-- Witness for C7 at a concrete two-entry list and its transposition. -/
theorem vaultKeySet_perm_invariant_witness :
    List.Perm [bwV1, bwV2] [bwV2, bwV1] ∧
    vaultKeySet [bwV1, bwV2] = vaultKeySet [bwV2, bwV1] :=
  ⟨List.Perm.swap bwV2 bwV1 [],
   vaultKeySet_perm_invariant _ _ (List.Perm.swap bwV2 bwV1 [])⟩

/-- C8: `_get_bitwarden_items` yields the empty list whenever no
session is held, the listing subprocess exits non-zero, or its output
fails to parse; the embedding is a total function, so no fault
reaches the caller. -/
theorem get_bitwarden_items_fail_soft (session : Option Str) (exitCode : Int)
    (parsed : Except Unit (List RawItem))
    (h : session = none ∨ exitCode ≠ 0 ∨ parsed = Except.error ()) :
    get_bitwarden_items session exitCode parsed = [] := by
  rcases h with h | h | h
  · rw [h]; rfl
  · by_cases hs : sessionFalsy session = true <;>
      simp [get_bitwarden_items, hs, h]
  · rw [h]
    by_cases hs : sessionFalsy session = true
    · simp [get_bitwarden_items, hs]
    · by_cases he : exitCode = 0 <;> simp [get_bitwarden_items, hs, he]

/-- Witness for C8 with no session held. -/
theorem get_bitwarden_items_fail_soft_witness :
    ((none : Option Str) = none ∨ (0 : Int) ≠ 0 ∨
      (Except.ok [] : Except Unit (List RawItem)) = Except.error ()) ∧
    get_bitwarden_items none 0 (Except.ok []) = [] :=
  ⟨Or.inl rfl, get_bitwarden_items_fail_soft none 0 (Except.ok []) (Or.inl rfl)⟩

/-- Counterexample to C9 as stated: the service `"x -"` does not
contain the separator `" - "`, yet the display name built for it is
`"x - - a"`, whose first separator occurrence starts inside the
service, so the created entry's key `"a@x"` differs from the local key
`"a@x -"`. -/
theorem created_key_roundtrip_cex :
    occursIn SEP (KeychainItem.mk ['a'] ['x', ' ', '-'] []).service = false ∧
    bwItemKey (createdItem (KeychainItem.mk ['a'] ['x', ' ', '-'] [])) ≠
      kcItemKey (KeychainItem.mk ['a'] ['x', ' ', '-'] []) := by
  decide

/-- C9 (amended): for a local credential whose service neither
contains `" - "` nor ends in `" -"`, the comparison key of the vault
entry `_create_bitwarden_item` builds equals the credential's own
comparison key, so a successfully created item classifies PRESENT on
a later run. -/
theorem created_key_roundtrip_amended (kc : KeychainItem)
    (h1 : occursIn SEP kc.service = false)
    (h2 : List.isSuffixOf [' ', '-'] kc.service = false) :
    bwItemKey (createdItem kc) = kcItemKey kc := by
  unfold bwItemKey createdItem kcItemKey
  show dictGet [(UNAME, kc.account), (PASSKEY, kc.password)] UNAME [] ++ ['@'] ++
      (pySplit SEP (kc.service ++ SEP ++ kc.account)).headD [] =
    kc.account ++ ['@'] ++ kc.service
  rw [pySplit_headD, List.append_assoc kc.service SEP kc.account,
    beforeFirst_boundary kc.account kc.service h1 h2]
  simp [dictGet, List.find?]

/-- Witness for the amended C9 at a benign concrete credential. -/
theorem created_key_roundtrip_amended_witness :
    occursIn SEP kcU1.service = false ∧
    List.isSuffixOf [' ', '-'] kcU1.service = false ∧
    bwItemKey (createdItem kcU1) = kcItemKey kcU1 :=
  ⟨by decide, by decide, created_key_roundtrip_amended kcU1 (by decide) (by decide)⟩

/-- C10: a zero-exit login whose stdout strips to nothing reports
success while storing the empty session; the empty session is falsy,
so listing returns the empty list without running `bw list`, creation
refuses without running `bw create` (first component `false`), and
every local credential classifies MISSING against the resulting empty
key set. -/
theorem empty_token_behavior (stdout : Str) (h : pyStripWS stdout = []) :
    login_bitwarden 0 stdout = (true, some []) ∧
    (∀ (ec : Int) (parsed : Except Unit (List RawItem)),
      get_bitwarden_items (some []) ec parsed = []) ∧
    (∀ ec : Int, create_bitwarden_item (some []) ec = (false, false)) ∧
    (∀ (kc : KeychainItem) (ec : Int) (parsed : Except Unit (List RawItem)),
      classify kc ((get_bitwarden_items (some []) ec parsed).map bwItemKey) =
        Classification.MISSING) := by
  refine ⟨?_, fun ec parsed => rfl, fun ec => rfl, fun kc ec parsed => rfl⟩
  simp [login_bitwarden, h]

/-- Witness for C10 at a whitespace-only login stdout. -/
theorem empty_token_behavior_witness :
    pyStripWS " \n".data = [] ∧
    login_bitwarden 0 " \n".data = (true, some []) ∧
    get_bitwarden_items (some []) 0 (Except.ok []) = [] ∧
    create_bitwarden_item (some []) 0 = (false, false) ∧
    classify ⟨['u'], ['s'], []⟩
      ((get_bitwarden_items (some []) 0 (Except.ok [])).map bwItemKey) =
      Classification.MISSING := by
  have h := empty_token_behavior " \n".data (by decide)
  exact ⟨by decide, h.1, h.2.1 0 (Except.ok []), h.2.2.1 0,
    h.2.2.2 ⟨['u'], ['s'], []⟩ 0 (Except.ok [])⟩

/-- A keychain dump with two credential entries, shaped like the one
in the repository's own test of `_get_keychain_items`. -/
def cexDump : Str :=
  "keychain: a\nacct=u1\nsvce=s1\nkeychain: b\nacct=u2\nsvce=s2".data

/-- C6 (failing): the dump above holds two credential entries (two
`'keychain: '` marker lines), yet the parser returns only the first
item.  An entry is appended only when the NEXT marker line is seen
(source lines 57-67), and the loop ends with the final entry still
pending in `current_item`, so the last entry of every dump is dropped
unless a further marker line follows it.  The repository's own test
expects one item per entry of a two-entry dump. -/
theorem get_keychain_items_drops_last :
    (pySplit ['\n'] cexDump).countP (occursIn KCMARK) = 2 ∧
    get_keychain_items 0 cexDump (fun _ _ => []) =
      [⟨"u1".data, "s1".data, []⟩] := by
  decide
